import Mathlib

/-!
Shallow embedding of the Sock Soccer authoritative server
(`socksoccerserver.py`) over exact rationals, together with theorems
settling the specification's claims about it.

Python floats are modelled as `ℚ`; `math.sqrt`/`math.hypot` are modelled
by `ratSqrt`/`hypotQ`, which are exact on perfect squares (all concrete
inputs used below are chosen so the square roots are exact).
`random.uniform(-20, 20)` in `reset_positions` is modelled by an explicit
jitter stream `jit : ℕ → ℚ × ℚ` indexed by iteration order.
-/

namespace SockSoccer

/-- `DT = 1.0 / TICK_RATE` with `TICK_RATE = 30`. -/
def DT : ℚ := 1 / 30

def FIELD_W : ℚ := 1200

def FIELD_H : ℚ := 700

def GOAL_W : ℚ := 20

def GOAL_H : ℚ := 220

def BALL_R : ℚ := 14

def PLAYER_R : ℚ := 18

def WIN_GOALS : ℤ := 5

def ROUND_SECONDS : ℚ := 180

def PLAYER_SPEED : ℚ := 320

/-- `SPRINT_MULT = 1.35`. -/
def SPRINT_MULT : ℚ := 27 / 20

/-- `PLAYER_FRICTION = 0.86`. -/
def PLAYER_FRICTION : ℚ := 43 / 50

/-- `BALL_FRICTION = 0.985`. -/
def BALL_FRICTION : ℚ := 197 / 200

/-- `KICK_COOLDOWN = 0.6`. -/
def KICK_COOLDOWN : ℚ := 3 / 5

def KICK_IMPULSE : ℚ := 540

def STAMINA_MAX : ℚ := 100

def STAMINA_DRAIN : ℚ := 60

def STAMINA_REGEN : ℚ := 40

def TEAM_RED : ℕ := 0

def TEAM_BLUE : ℕ := 1

/-- `def clamp(v,a,b): return max(a, min(b, v))`. -/
def clamp (v a b : ℚ) : ℚ := max a (min b v)

/-- Exact-on-perfect-squares model of `math.sqrt` on nonnegative rationals:
`sqrt (n/d) = sqrt (n*d) / d`. -/
def ratSqrt (q : ℚ) : ℚ := (Nat.sqrt (q.num.toNat * q.den) : ℚ) / (q.den : ℚ)

/-- Model of `math.hypot`. -/
def hypotQ (x y : ℚ) : ℚ := ratSqrt (x * x + y * y)

/-- `dist = math.sqrt(dist2) if dist2 > 0 else 0.0001` (line 181), the
divisor of the player–ball collision normal. -/
def collDist (d2 : ℚ) : ℚ := if 0 < d2 then ratSqrt d2 else 1 / 10000

theorem ratSqrt_pos {q : ℚ} (hq : 0 < q) : 0 < ratSqrt q := by
  have hnum : 0 < q.num := Rat.num_pos.mpr hq
  have h1 : 0 < q.num.toNat := by omega
  have hden : 0 < q.den := q.pos
  have hprod : 0 < q.num.toNat * q.den := Nat.mul_pos h1 hden
  have hs : 0 < Nat.sqrt (q.num.toNat * q.den) := Nat.sqrt_pos.mpr hprod
  have h2 : (0 : ℚ) < (Nat.sqrt (q.num.toNat * q.den) : ℚ) := by exact_mod_cast hs
  have h3 : (0 : ℚ) < (q.den : ℚ) := by exact_mod_cast hden
  exact div_pos h2 h3

structure Player where
  pid : String
  name : String
  team : ℕ
  x : ℚ
  y : ℚ
  vx : ℚ
  vy : ℚ
  sprint : Bool
  kick : Bool
  aimx : ℚ
  aimy : ℚ
  last_input_ts : ℚ
  cooldown : ℚ
  stamina : ℚ
  score : ℤ
  connected : Bool
deriving DecidableEq

structure Ball where
  x : ℚ
  y : ℚ
  vx : ℚ
  vy : ℚ
deriving DecidableEq

/-- The `Game` dataclass.  `sockets` keeps only the connection identities;
each socket's send outcome is supplied externally to `broadcast_step`. -/
structure Game where
  players : List Player
  sockets : List String
  ball : Ball
  score_red : ℤ
  score_blue : ℤ
  round_end_ts : ℚ
  last_event : String
  last_event_t : ℚ
deriving DecidableEq

/-- `red_slots = [(FIELD_W*0.25, FIELD_H*0.4), (FIELD_W*0.25, FIELD_H*0.6)]`. -/
def red_slots : List (ℚ × ℚ) :=
  [(FIELD_W * (1 / 4), FIELD_H * (2 / 5)), (FIELD_W * (1 / 4), FIELD_H * (3 / 5))]

/-- `blue_slots = [(FIELD_W*0.75, FIELD_H*0.4), (FIELD_W*0.75, FIELD_H*0.6)]`. -/
def blue_slots : List (ℚ × ℚ) :=
  [(FIELD_W * (3 / 4), FIELD_H * (2 / 5)), (FIELD_W * (3 / 4), FIELD_H * (3 / 5))]

/-- One player's repositioning inside `reset_positions`: slot chosen by the
team counter modulo the slot count, plus the jitter drawn for this player. -/
def kickoff_player (jit : ℕ → ℚ × ℚ) (idx r_i b_i : ℕ) (p : Player) : Player :=
  let slots := if p.team = TEAM_RED then red_slots else blue_slots
  let i := if p.team = TEAM_RED then r_i else b_i
  let s := slots.getD (i % slots.length) (0, 0)
  { p with x := s.1 + (jit idx).1, y := s.2 + (jit idx).2,
           vx := 0, vy := 0, cooldown := 0 }

/-- The `for p in self.players.values()` loop of `reset_positions`, carrying
the iteration index and the two team slot counters. -/
def place_all (jit : ℕ → ℚ × ℚ) : List Player → ℕ → ℕ → ℕ → List Player
  | [], _, _, _ => []
  | p :: rest, idx, r_i, b_i =>
    if p.team = TEAM_RED then
      kickoff_player jit idx r_i b_i p :: place_all jit rest (idx + 1) (r_i + 1) b_i
    else
      kickoff_player jit idx r_i b_i p :: place_all jit rest (idx + 1) r_i (b_i + 1)

/-- `Game.reset_positions` (lines 88–104). -/
def Game.reset_positions (g : Game) (jit : ℕ → ℚ × ℚ) (now : ℚ)
    (after_goal : Bool) : Game :=
  { g with players := place_all jit g.players 0 0 0,
           ball := { x := FIELD_W / 2, y := FIELD_H / 2, vx := 0, vy := 0 },
           last_event_t := if after_goal then now else g.last_event_t }

/-- `Game.score_goal` (lines 202–210). -/
def Game.score_goal (g : Game) (scoring_team : ℕ) (jit : ℕ → ℚ × ℚ)
    (now : ℚ) : Game :=
  let g2 :=
    if scoring_team = TEAM_RED then
      { g with score_red := g.score_red + 1, last_event := "GOAL! Red +1" }
    else
      { g with score_blue := g.score_blue + 1, last_event := "GOAL! Blue +1" }
  g2.reset_positions jit now true

/-- `Game.physics_player` (lines 130–140): friction, integration, then the
four independent axis clamps, each zeroing its velocity component. -/
def physics_player (p : Player) (dt : ℚ) : Player :=
  let vx := p.vx * PLAYER_FRICTION
  let vy := p.vy * PLAYER_FRICTION
  let x := p.x + vx * dt
  let y := p.y + vy * dt
  let x2 := if x < PLAYER_R then PLAYER_R else x
  let vx2 := if x < PLAYER_R then 0 else vx
  let x3 := if x2 > FIELD_W - PLAYER_R then FIELD_W - PLAYER_R else x2
  let vx3 := if x2 > FIELD_W - PLAYER_R then 0 else vx2
  let y2 := if y < PLAYER_R then PLAYER_R else y
  let vy2 := if y < PLAYER_R then 0 else vy
  let y3 := if y2 > FIELD_H - PLAYER_R then FIELD_H - PLAYER_R else y2
  let vy3 := if y2 > FIELD_H - PLAYER_R then 0 else vy2
  { p with x := x3, y := y3, vx := vx3, vy := vy3 }

/-- Left-wall handling of `physics_ball` (lines 154–160): a crossing inside
the goal opening scores for Blue, otherwise clamp and reflect with 0.7
restitution.  A goal resets the ball in place (`b` aliases `self.ball`). -/
def wallLeft (g : Game) (jit : ℕ → ℚ × ℚ) (now : ℚ) (b : Ball) : Game × Ball :=
  if b.x - BALL_R < 0 then
    if (FIELD_H - GOAL_H) / 2 < b.y ∧ b.y < (FIELD_H - GOAL_H) / 2 + GOAL_H then
      let g2 := Game.score_goal { g with ball := b } TEAM_BLUE jit now
      (g2, g2.ball)
    else (g, { b with x := BALL_R, vx := |b.vx| * (7 / 10) })
  else (g, b)

/-- Right-wall handling of `physics_ball` (lines 161–167). -/
def wallRight (g : Game) (jit : ℕ → ℚ × ℚ) (now : ℚ) (b : Ball) : Game × Ball :=
  if b.x + BALL_R > FIELD_W then
    if (FIELD_H - GOAL_H) / 2 < b.y ∧ b.y < (FIELD_H - GOAL_H) / 2 + GOAL_H then
      let g2 := Game.score_goal { g with ball := b } TEAM_RED jit now
      (g2, g2.ball)
    else (g, { b with x := FIELD_W - BALL_R, vx := -|b.vx| * (7 / 10) })
  else (g, b)

/-- Top-wall handling of `physics_ball` (lines 169–170). -/
def wallTop (b : Ball) : Ball :=
  if b.y - BALL_R < 0 then { b with y := BALL_R, vy := |b.vy| * (7 / 10) } else b

/-- Bottom-wall handling of `physics_ball` (lines 171–172). -/
def wallBottom (b : Ball) : Ball :=
  if b.y + BALL_R > FIELD_H then
    { b with y := FIELD_H - BALL_R, vy := -|b.vy| * (7 / 10) }
  else b

/-- The whole boundary-handling phase of `physics_ball` (lines 149–172). -/
def ballWalls (g : Game) (jit : ℕ → ℚ × ℚ) (now : ℚ) (b : Ball) : Game × Ball :=
  let gb := wallLeft g jit now b
  let gb2 := wallRight gb.1 jit now gb.2
  (gb2.1, wallBottom (wallTop gb2.2))

/-- One iteration of the player–ball collision loop (lines 175–196). -/
def ballCollidePlayer (b : Ball) (p : Player) : Ball :=
  let dx := b.x - p.x
  let dy := b.y - p.y
  let dist2 := dx * dx + dy * dy
  let rad := BALL_R + PLAYER_R
  if dist2 < rad * rad then
    let dist := collDist dist2
    let nx := dx / dist
    let ny := dy / dist
    let overlap := rad - dist
    let b1 : Ball := { b with x := b.x + nx * overlap * (3 / 5),
                              y := b.y + ny * overlap * (3 / 5) }
    let rel_vx := b1.vx - p.vx
    let rel_vy := b1.vy - p.vy
    let dot := rel_vx * nx + rel_vy * ny
    let b2 : Ball :=
      if dot < 0 then { b1 with vx := b1.vx - nx * dot, vy := b1.vy - ny * dot }
      else b1
    { b2 with vx := b2.vx + p.vx * (1 / 4), vy := b2.vy + p.vy * (1 / 4) }
  else b

/-- `Game.physics_ball` (lines 142–200): integration and friction, boundary
handling, the player collision loop, then the tiny-velocity snap. -/
def Game.physics_ball (g : Game) (jit : ℕ → ℚ × ℚ) (now dt : ℚ) : Game :=
  let b0 := g.ball
  let b1 : Ball := { x := b0.x + b0.vx * dt, y := b0.y + b0.vy * dt,
                     vx := b0.vx * BALL_FRICTION, vy := b0.vy * BALL_FRICTION }
  let gb := ballWalls g jit now b1
  let b2 := gb.1.players.foldl ballCollidePlayer gb.2
  let b3 : Ball := { b2 with vx := if |b2.vx| < 4 then 0 else b2.vx }
  let b4 : Ball := { b3 with vy := if |b3.vy| < 4 then 0 else b3.vy }
  { gb.1 with ball := b4 }

/-- A decoded input command: the four directional values are numbers because
the source uses them only arithmetically (`(right - left) * speed`, with
Python booleans behaving as 0/1), the two flags are used only by truth
value, and the aim components are the results of `float(...)`. -/
structure Inp where
  up : ℚ
  down : ℚ
  left : ℚ
  right : ℚ
  sprint : Bool
  kick : Bool
  aimx : ℚ
  aimy : ℚ
deriving DecidableEq

/-- The kick-direction computation of `handle_input` (lines 243–251). -/
def kickDir (aimx aimy dx dy : ℚ) : ℚ × ℚ :=
  let mag := hypotQ aimx aimy
  if mag < 1 / 5 then
    if dx = 0 ∧ dy = 0 then (1, 0)
    else
      let m := hypotQ dx dy
      (dx / m, dy / m)
  else (aimx / mag, aimy / mag)

/-- `Game.handle_input` (lines 212–256) on an already decoded command:
aim assignment, acceleration, stamina, then the guarded kick. -/
def Game.handle_input (g : Game) (p : Player) (inp : Inp) (dt now : ℚ) :
    Game × Player :=
  let p1 : Player := { p with aimx := inp.aimx, aimy := inp.aimy }
  let speed := PLAYER_SPEED * (if inp.sprint ∧ 0 < p1.stamina then SPRINT_MULT else 1)
  let ax := (inp.right - inp.left) * speed
  let ay := (inp.down - inp.up) * speed
  let p2 : Player := { p1 with vx := p1.vx + ax * dt, vy := p1.vy + ay * dt }
  let p3 : Player :=
    if inp.sprint ∧ (0 < |ax| ∨ 0 < |ay|) then
      { p2 with stamina := clamp (p2.stamina - STAMINA_DRAIN * dt) 0 STAMINA_MAX }
    else
      { p2 with stamina := clamp (p2.stamina + STAMINA_REGEN * dt) 0 STAMINA_MAX }
  -- the earlier updates never write `cooldown`, `x`, `y` or `name`, so the
  -- kick section's reads of those fields are reads of `p`'s values
  if inp.kick ∧ p.cooldown ≤ 0 then
    let dx := g.ball.x - p.x
    let dy := g.ball.y - p.y
    let g2 :=
      if dx * dx + dy * dy ≤ (PLAYER_R + BALL_R + 6) ^ 2 then
        let u := kickDir inp.aimx inp.aimy dx dy
        { g with ball := { g.ball with vx := g.ball.vx + u.1 * KICK_IMPULSE,
                                       vy := g.ball.vy + u.2 * KICK_IMPULSE },
                 last_event := p.name ++ " kicked!", last_event_t := now }
      else g
    (g2, { p3 with cooldown := KICK_COOLDOWN })
  else (g, p3)

/-- The input-message branch of `handle_client` (lines 311–315): look the
player up, stamp `last_input_ts`, and apply the command immediately with
the fixed `DT`. -/
def Game.conn_input (g : Game) (pid : String) (inp : Inp) (now : ℚ) : Game :=
  match g.players.find? (fun q => q.pid == pid) with
  | none => g
  | some p =>
    let gp := g.handle_input { p with last_input_ts := now } inp DT now
    { gp.1 with players := gp.1.players.map (fun q => if q.pid == pid then gp.2 else q) }

/-- The per-player cooldown decrement of `game_loop` (line 340). -/
def tickCooldown (p : Player) (dt : ℚ) : Player :=
  if 0 < p.cooldown then { p with cooldown := p.cooldown - dt } else p

/-- The per-player section of one `game_loop` tick (lines 339–341). -/
def tickPlayers (g : Game) (dt : ℚ) : Game :=
  { g with players := g.players.map (fun p => physics_player (tickCooldown p dt) dt) }

/-- `Game.round_over` (lines 258–261). -/
def Game.round_over (g : Game) (now : ℚ) : Bool :=
  if WIN_GOALS ≤ g.score_red ∨ WIN_GOALS ≤ g.score_blue then true
  else decide (g.round_end_ts ≤ now)

/-- `Game.winner_text` (lines 263–266). -/
def Game.winner_text (g : Game) : String :=
  if g.score_blue < g.score_red then "Red wins!"
  else if g.score_red < g.score_blue then "Blue wins!"
  else "Draw!"

/-- The round-end section of one `game_loop` tick (lines 346–352).  The
returned text is the toast broadcast on round end; it is computed from the
pre-reset scores, mirroring that the broadcast happens before the reset. -/
def Game.tick_round (g : Game) (jit : ℕ → ℚ × ℚ) (now : ℚ) : Game × Option String :=
  if g.round_over now then
    (({ g with score_red := 0, score_blue := 0,
               round_end_ts := now + ROUND_SECONDS }).reset_positions jit now false,
     some g.winner_text)
  else (g, none)

/-- `Game.broadcast` (lines 83–86): `asyncio.gather` without
`return_exceptions` dispatches a send to every registered socket and raises
the first failure.  `sendOk` gives each socket's send outcome; the result is
the number of sends dispatched and the raised-or-not outcome. -/
def Game.broadcast_step (g : Game) (sendOk : String → Bool) :
    ℕ × Except Unit Unit :=
  if g.sockets.isEmpty then (0, .ok ())
  else (g.sockets.length,
        if g.sockets.all sendOk then .ok () else .error ())

/-- The snapshot-broadcast tail of one `game_loop` tick (lines 354–356):
`game_loop` has no exception handler, so a raised send failure propagates
out of the loop body. -/
def Game.tick_broadcast (g : Game) (sendOk : String → Bool) : Except Unit Game :=
  match (g.broadcast_step sendOk).2 with
  | .error e => .error e
  | .ok _ => .ok g

/-- A JSON scalar as it reaches `handle_input`'s `inp` dict: absent key,
boolean, number, (nonempty) string carrying its numeric parse when it has
one, or null. -/
inductive PyVal where
  | missing
  | pybool (b : Bool)
  | pynum (q : ℚ)
  | pystr (numval : Option ℚ)
  | pynull
deriving DecidableEq

/-- The raw `data` dict of an input message. -/
structure RawInp where
  up : PyVal
  down : PyVal
  left : PyVal
  right : PyVal
  sprint : PyVal
  kick : PyVal
  aimx : PyVal
  aimy : PyVal
deriving DecidableEq

/-- Python truthiness, for the `sprint`/`kick` flags (missing key defaults
to `False`). -/
def pyTruthy : PyVal → Bool
  | .missing => false
  | .pybool b => b
  | .pynum q => decide (q ≠ 0)
  | .pystr _ => true
  | .pynull => false

/-- Numeric value of a directional field as used by `(right - left)`:
a missing key defaults to `False` (0), booleans are 0/1, strings and null
raise `TypeError` in the subtraction. -/
def pyNum : PyVal → Except Unit ℚ
  | .missing => .ok 0
  | .pybool b => .ok (if b then 1 else 0)
  | .pynum q => .ok q
  | .pystr _ => .error ()
  | .pynull => .error ()

/-- `float(inp.get(k, dflt))`: non-numeric strings and null raise. -/
def pyFloat (v : PyVal) (dflt : ℚ) : Except Unit ℚ :=
  match v with
  | .missing => .ok dflt
  | .pybool b => .ok (if b then 1 else 0)
  | .pynum q => .ok q
  | .pystr (some q) => .ok q
  | .pystr none => .error ()
  | .pynull => .error ()

/-- The field-decoding head of `handle_input` (lines 213–220) together with
the typed uses of the fields further down; an error is an uncaught Python
exception escaping `handle_input`. -/
def parse_input (r : RawInp) : Except Unit Inp := do
  let ax ← pyFloat r.aimx 1
  let ay ← pyFloat r.aimy 0
  let u ← pyNum r.up
  let d ← pyNum r.down
  let l ← pyNum r.left
  let ri ← pyNum r.right
  .ok { up := u, down := d, left := l, right := ri,
        sprint := pyTruthy r.sprint, kick := pyTruthy r.kick,
        aimx := ax, aimy := ay }

/-- `handle_input` on a raw dict: decoding failures escape as exceptions
(the `async for` body of `handle_client` only guards `json.loads`). -/
def Game.handle_input_raw (g : Game) (p : Player) (r : RawInp) (dt now : ℚ) :
    Except Unit (Game × Player) :=
  match parse_input r with
  | .ok i => .ok (g.handle_input p i dt now)
  | .error e => .error e

/-- Whether a raw field is of a type the command application tolerates. -/
def wellTypedVal : PyVal → Bool
  | .missing => true
  | .pybool _ => true
  | .pynum _ => true
  | _ => false

def wellTypedInp (r : RawInp) : Bool :=
  wellTypedVal r.up && wellTypedVal r.down && wellTypedVal r.left &&
  wellTypedVal r.right && wellTypedVal r.sprint && wellTypedVal r.kick &&
  wellTypedVal r.aimx && wellTypedVal r.aimy

def exceptOk {α : Type} : Except Unit α → Bool
  | .ok _ => true
  | .error _ => false

/-- The shape `reset_positions` leaves every player in: zero velocity, zero
cooldown, and a team slot plus one jitter draw. -/
def KickoffPlaced (jit : ℕ → ℚ × ℚ) (p : Player) : Prop :=
  p.vx = 0 ∧ p.vy = 0 ∧ p.cooldown = 0 ∧
  ∃ n s, s ∈ (if p.team = TEAM_RED then red_slots else blue_slots) ∧
    p.x = s.1 + (jit n).1 ∧ p.y = s.2 + (jit n).2

/-- Reachable cooldown values: a multiple of `DT` no larger than
`KICK_COOLDOWN = 18 * DT`. -/
def CdInv (c : ℚ) : Prop := ∃ k : ℕ, k ≤ 18 ∧ c = (k : ℚ) * DT

/-! Concrete fixtures used by witnesses and counterexamples. -/

/-- Zero jitter stream (a legal draw of `random.uniform(-20, 20)`). -/
def jit0 : ℕ → ℚ × ℚ := fun _ => (0, 0)

def pA : Player :=
  { pid := "a", name := "A", team := TEAM_RED, x := 600, y := 350, vx := 0,
    vy := 0, sprint := false, kick := false, aimx := 1, aimy := 0,
    last_input_ts := 0, cooldown := 0, stamina := 100, score := 0,
    connected := true }

def g1 : Game :=
  { players := [pA], sockets := ["a"], ball := ⟨600, 350, 0, 0⟩,
    score_red := 0, score_blue := 0, round_end_ts := 180,
    last_event := "", last_event_t := 0 }

/-- A pure movement command: right held, nothing else. -/
def inpR : Inp :=
  { up := 0, down := 0, left := 0, right := 1, sprint := false, kick := false,
    aimx := 1, aimy := 0 }

/-- The raw dict of an input message none of whose fields is present. -/
def rawAllMissing : RawInp :=
  ⟨.missing, .missing, .missing, .missing, .missing, .missing, .missing, .missing⟩

/-- An input message whose `aimx` is a non-numeric string such as `"abc"`. -/
def rawBadAim : RawInp :=
  { rawAllMissing with aimx := .pystr none }

def gB : Game := { g1 with sockets := ["a", "b"] }

/-- Send outcomes where socket `"a"`'s send fails and `"b"`'s succeeds. -/
def sendOkB : String → Bool := fun s => s == "b"

/-! Helper lemmas. -/

theorem handle_input_pid (g : Game) (p : Player) (inp : Inp) (dt now : ℚ) :
    ((g.handle_input p inp dt now)).2.pid = p.pid := by
  simp only [Game.handle_input]
  split_ifs <;> rfl

theorem handle_input_players (g : Game) (p : Player) (inp : Inp) (dt now : ℚ) :
    ((g.handle_input p inp dt now)).1.players = g.players := by
  simp only [Game.handle_input]
  split_ifs <;> rfl

theorem handle_input_nokick (g : Game) (p : Player) (inp : Inp) (dt now : ℚ)
    (hk : inp.kick = false) :
    ((g.handle_input p inp dt now)).2.vx
        = p.vx + ((inp.right - inp.left) *
            (PLAYER_SPEED * (if inp.sprint ∧ 0 < p.stamina then SPRINT_MULT else 1))) * dt ∧
    ((g.handle_input p inp dt now)).1 = g := by
  simp only [Game.handle_input, hk, Bool.false_eq_true, false_and, if_false]
  constructor
  · split_ifs <;> rfl
  · trivial

theorem find?_update (l : List Player) (pid : String) (newP : Player)
    (hnew : (newP.pid == pid) = true) :
    ∀ p, l.find? (fun q => q.pid == pid) = some p →
      (l.map (fun q => if q.pid == pid then newP else q)).find? (fun q => q.pid == pid)
        = some newP := by
  induction l with
  | nil => intro p h; simp [List.find?] at h
  | cons a t ih =>
    intro p h
    by_cases ha : (a.pid == pid) = true
    · simp only [List.map_cons, if_pos ha]
      simp [List.find?_cons, hnew]
    · have ha' : (a.pid == pid) = false := by simpa using ha
      rw [show List.find? (fun q => q.pid == pid) (a :: t)
            = List.find? (fun q => q.pid == pid) t by simp [List.find?_cons, ha']] at h
      simp only [List.map_cons, if_neg ha]
      rw [show List.find? (fun q => q.pid == pid)
            (a :: List.map (fun q => if (q.pid == pid) = true then newP else q) t)
          = List.find? (fun q => q.pid == pid)
            (List.map (fun q => if (q.pid == pid) = true then newP else q) t) by
        simp [List.find?_cons, ha']]
      exact ih p h

/-! ## C1 -/

/-- C1 counterexample: there is no pending-input cell.  The connection-read
path (`conn_input`, modelling lines 311–315) changes the player's velocity
from 0 to 32/3 on the first input message, and a second identical message
arriving within the same tick interval compounds it to 64/3 instead of
leaving only the most recent command's effect. -/
theorem c1_counterexample :
    ((g1.players.find? (fun q => q.pid == "a")).map Player.vx = some 0) ∧
    (((g1.conn_input "a" inpR 0).players.find? (fun q => q.pid == "a")).map Player.vx
        = some (32 / 3)) ∧
    ((((g1.conn_input "a" inpR 0).conn_input "a" inpR 0).players.find?
        (fun q => q.pid == "a")).map Player.vx = some (64 / 3)) ∧
    (32 / 3 : ℚ) ≠ 0 ∧ (64 / 3 : ℚ) ≠ 32 / 3 := by
  refine ⟨?_, ?_, ?_, by norm_num, by norm_num⟩
  · simp [g1, pA, List.find?]
  · simp [Game.conn_input, Game.handle_input, g1, pA, inpR, DT, PLAYER_SPEED,
      SPRINT_MULT, clamp, STAMINA_REGEN, STAMINA_MAX, List.find?]
    norm_num
  · simp [Game.conn_input, Game.handle_input, g1, pA, inpR, DT, PLAYER_SPEED,
      SPRINT_MULT, clamp, STAMINA_REGEN, STAMINA_MAX, List.find?]
    norm_num

/-- C1 (amended): receiving an input message applies the command at once on
the connection-reading path — `handle_input` runs per message with the fixed
`DT` and directly mutates the player's simulated velocity, so commands
arriving within one tick interval accumulate instead of coalescing. -/
theorem c1_input_applied_immediately (g : Game) (pid : String) (p : Player)
    (inp : Inp) (now : ℚ)
    (hfind : g.players.find? (fun q => q.pid == pid) = some p)
    (hk : inp.kick = false) :
    ((g.conn_input pid inp now).players.find? (fun q => q.pid == pid)).map Player.vx
      = some (p.vx + ((inp.right - inp.left) *
          (PLAYER_SPEED * (if inp.sprint ∧ 0 < p.stamina then SPRINT_MULT else 1))) * DT) := by
  have hp := List.find?_some hfind
  unfold Game.conn_input
  rw [hfind]
  dsimp only
  have hpid : (((g.handle_input { p with last_input_ts := now } inp DT now)).2.pid == pid)
      = true := by rw [handle_input_pid]; exact hp
  rw [handle_input_players]
  rw [find?_update g.players pid _ hpid p hfind]
  rw [Option.map_some']
  have hv := (handle_input_nokick g { p with last_input_ts := now } inp DT now hk).1
  rw [hv]

/-- C1 witness. -/
theorem c1_witness :
    ((g1.conn_input "a" inpR 5).players.find? (fun q => q.pid == "a")).map Player.vx
      = some (pA.vx + ((inpR.right - inpR.left) *
          (PLAYER_SPEED * (if inpR.sprint ∧ 0 < pA.stamina then SPRINT_MULT else 1))) * DT) :=
  c1_input_applied_immediately g1 "a" pA inpR 5 (by simp [g1, pA, List.find?]) rfl

/-! ## C2 -/

theorem pyFloat_wt_ok (v : PyVal) (d : ℚ) (h : wellTypedVal v = true) :
    ∃ q, pyFloat v d = .ok q := by
  cases v with
  | missing => exact ⟨d, rfl⟩
  | pybool b => exact ⟨_, rfl⟩
  | pynum q => exact ⟨q, rfl⟩
  | pystr o => simp [wellTypedVal] at h
  | pynull => simp [wellTypedVal] at h

theorem pyNum_wt_ok (v : PyVal) (h : wellTypedVal v = true) :
    ∃ q, pyNum v = .ok q := by
  cases v with
  | missing => exact ⟨0, rfl⟩
  | pybool b => exact ⟨_, rfl⟩
  | pynum q => exact ⟨q, rfl⟩
  | pystr o => simp [wellTypedVal] at h
  | pynull => simp [wellTypedVal] at h

/-- C2 counterexample: a wrong-typed `aimx` field (`float("abc")`) raises,
the error escapes `handle_input` into the connection's service (lines
306–317 guard only `json.loads`), and the command is lost as a whole. -/
theorem c2_counterexample :
    exceptOk (g1.handle_input_raw pA rawBadAim DT 0) = false := rfl

/-- C2 (amended): missing fields default to neutral/false/zero and any
well-typed (boolean or numeric, of any magnitude) field is tolerated, but a
wrong-typed field — a non-numeric string or null — raises an error that
escapes command application into the connection's service. -/
theorem c2_defaults_tolerant (g : Game) (p : Player) (r : RawInp) (dt now : ℚ)
    (h : wellTypedInp r = true) :
    exceptOk (g.handle_input_raw p r dt now) = true ∧
    parse_input rawAllMissing
      = .ok { up := 0, down := 0, left := 0, right := 0, sprint := false,
              kick := false, aimx := 1, aimy := 0 } := by
  refine ⟨?_, rfl⟩
  simp only [wellTypedInp, Bool.and_eq_true] at h
  obtain ⟨⟨⟨⟨⟨⟨⟨h1, h2⟩, h3⟩, h4⟩, h5⟩, h6⟩, h7⟩, h8⟩ := h
  obtain ⟨ax, hax⟩ := pyFloat_wt_ok r.aimx 1 h7
  obtain ⟨ay, hay⟩ := pyFloat_wt_ok r.aimy 0 h8
  obtain ⟨u, hu⟩ := pyNum_wt_ok r.up h1
  obtain ⟨d2, hd⟩ := pyNum_wt_ok r.down h2
  obtain ⟨l, hl⟩ := pyNum_wt_ok r.left h3
  obtain ⟨ri, hri⟩ := pyNum_wt_ok r.right h4
  simp only [Game.handle_input_raw, parse_input, hax, hay, hu, hd, hl, hri]
  rfl

/-- C2 witness. -/
theorem c2_witness :
    exceptOk (g1.handle_input_raw pA rawAllMissing DT 0) = true ∧
    parse_input rawAllMissing
      = .ok { up := 0, down := 0, left := 0, right := 0, sprint := false,
              kick := false, aimx := 1, aimy := 0 } :=
  c2_defaults_tolerant g1 pA rawAllMissing DT 0 rfl

/-! ## C3 -/

/-- C3 counterexample: with sockets `"a"` (whose send fails) and `"b"`
(whose send succeeds), the broadcast dispatches both sends but re-raises
the failure, which propagates uncaught out of the `game_loop` body — the
tick scheduler is interrupted, contradicting the claim. -/
theorem c3_counterexample :
    (gB.broadcast_step sendOkB).1 = 2 ∧
    exceptOk (gB.tick_broadcast sendOkB) = false := ⟨rfl, rfl⟩

/-- C3 (amended): a failed delivery does not prevent dispatching sends to
the other registered connections (all of them are dispatched concurrently by
`asyncio.gather`), but the failure propagates out of `broadcast` and
interrupts the tick scheduler; the broadcast path itself never performs the
failing connection's disconnect handling. -/
theorem c3_failure_propagates (g : Game) (sendOk : String → Bool) :
    (g.broadcast_step sendOk).1 = g.sockets.length ∧
    ((∀ s ∈ g.sockets, sendOk s = true) → g.tick_broadcast sendOk = .ok g) ∧
    ((∃ s ∈ g.sockets, sendOk s = false) → exceptOk (g.tick_broadcast sendOk) = false) := by
  refine ⟨?_, ?_, ?_⟩
  · unfold Game.broadcast_step
    by_cases h : g.sockets.isEmpty = true
    · rw [if_pos h]; simp [List.isEmpty_iff.mp h]
    · rw [if_neg h]
  · intro hall
    unfold Game.tick_broadcast Game.broadcast_step
    by_cases h : g.sockets.isEmpty = true
    · rw [if_pos h]
    · rw [if_neg h, if_pos (List.all_eq_true.mpr hall)]
  · rintro ⟨s, hs, hfail⟩
    have hne : ¬ g.sockets.isEmpty = true := by
      cases hsock : g.sockets with
      | nil => rw [hsock] at hs; simp at hs
      | cons a t => simp [hsock]
    have hallf : ¬ g.sockets.all sendOk = true := by
      intro hall
      rw [List.all_eq_true] at hall
      have := hall s hs
      rw [hfail] at this
      exact Bool.false_ne_true this
    unfold Game.tick_broadcast Game.broadcast_step
    rw [if_neg hne, if_neg hallf]
    rfl

/-- C3 witness. -/
theorem c3_witness :
    exceptOk (gB.tick_broadcast sendOkB) = false ∧
    (gB.broadcast_step sendOkB).1 = gB.sockets.length :=
  ⟨(c3_failure_propagates gB sendOkB).2.2 ⟨"a", by simp [gB, g1], rfl⟩,
   (c3_failure_propagates gB sendOkB).1⟩

/-! ## C9 -/

/-- The axis-clamping pattern of `physics_player`: lines 137–140 run the two
one-sided clamps in sequence and zero the velocity component of a clamped
axis. -/
theorem axis_clamp (x v lo hi : ℚ) (hlohi : lo ≤ hi) :
    lo ≤ (if (if x < lo then lo else x) > hi then hi else (if x < lo then lo else x)) ∧
    (if (if x < lo then lo else x) > hi then hi else (if x < lo then lo else x)) ≤ hi ∧
    (if (if x < lo then lo else x) > hi then hi else (if x < lo then lo else x))
      = clamp x lo hi ∧
    ((x < lo ∨ hi < x) →
      (if (if x < lo then lo else x) > hi then 0 else (if x < lo then 0 else v)) = 0) ∧
    ((lo ≤ x ∧ x ≤ hi) →
      (if (if x < lo then lo else x) > hi then 0 else (if x < lo then 0 else v)) = v) := by
  unfold clamp
  by_cases h1 : x < lo
  · rw [if_pos h1, if_pos h1]
    by_cases h2 : lo > hi
    · exact absurd hlohi (not_le.mpr h2)
    · rw [if_neg h2, if_neg h2]
      refine ⟨le_refl lo, hlohi, ?_, fun _ => rfl, ?_⟩
      · rw [min_eq_right (le_of_lt (lt_of_lt_of_le h1 hlohi)), max_eq_left (le_of_lt h1)]
      · rintro ⟨ha, _⟩
        exact absurd h1 (not_lt.mpr ha)
  · rw [if_neg h1, if_neg h1]
    by_cases h2 : x > hi
    · rw [if_pos h2, if_pos h2]
      refine ⟨hlohi, le_refl hi, ?_, fun _ => rfl, ?_⟩
      · rw [min_eq_left (le_of_lt h2), max_eq_right hlohi]
      · rintro ⟨_, hb⟩
        exact absurd h2 (not_lt.mpr hb)
    · rw [if_neg h2, if_neg h2]
      have hx1 : lo ≤ x := not_lt.mp h1
      have hx2 : x ≤ hi := not_lt.mp h2
      refine ⟨hx1, hx2, ?_, ?_, fun _ => rfl⟩
      · rw [min_eq_right hx2, max_eq_right hx1]
      · rintro (hc | hc)
        · exact absurd hc (not_lt.mpr hx1)
        · exact absurd hc (not_lt.mpr hx2)

/-- C9: every `physics_player` step leaves the player's position inside
`[PLAYER_R, FIELD_W - PLAYER_R] × [PLAYER_R, FIELD_H - PLAYER_R]`, the
post-step position is the per-axis clamp of the integrated position, and a
clamped axis has its velocity component zeroed (an unclamped axis keeps its
friction-decayed velocity). -/
theorem c9_player_in_field (p : Player) :
    PLAYER_R ≤ (physics_player p DT).x ∧ (physics_player p DT).x ≤ FIELD_W - PLAYER_R ∧
    PLAYER_R ≤ (physics_player p DT).y ∧ (physics_player p DT).y ≤ FIELD_H - PLAYER_R ∧
    (physics_player p DT).x
      = clamp (p.x + p.vx * PLAYER_FRICTION * DT) PLAYER_R (FIELD_W - PLAYER_R) ∧
    (physics_player p DT).y
      = clamp (p.y + p.vy * PLAYER_FRICTION * DT) PLAYER_R (FIELD_H - PLAYER_R) ∧
    ((p.x + p.vx * PLAYER_FRICTION * DT < PLAYER_R ∨
        FIELD_W - PLAYER_R < p.x + p.vx * PLAYER_FRICTION * DT) →
      (physics_player p DT).vx = 0) ∧
    ((PLAYER_R ≤ p.x + p.vx * PLAYER_FRICTION * DT ∧
        p.x + p.vx * PLAYER_FRICTION * DT ≤ FIELD_W - PLAYER_R) →
      (physics_player p DT).vx = p.vx * PLAYER_FRICTION) ∧
    ((p.y + p.vy * PLAYER_FRICTION * DT < PLAYER_R ∨
        FIELD_H - PLAYER_R < p.y + p.vy * PLAYER_FRICTION * DT) →
      (physics_player p DT).vy = 0) ∧
    ((PLAYER_R ≤ p.y + p.vy * PLAYER_FRICTION * DT ∧
        p.y + p.vy * PLAYER_FRICTION * DT ≤ FIELD_H - PLAYER_R) →
      (physics_player p DT).vy = p.vy * PLAYER_FRICTION) := by
  have hW : PLAYER_R ≤ FIELD_W - PLAYER_R := by norm_num [PLAYER_R, FIELD_W]
  have hH : PLAYER_R ≤ FIELD_H - PLAYER_R := by norm_num [PLAYER_R, FIELD_H]
  have hx := axis_clamp (p.x + p.vx * PLAYER_FRICTION * DT) (p.vx * PLAYER_FRICTION)
    PLAYER_R (FIELD_W - PLAYER_R) hW
  have hy := axis_clamp (p.y + p.vy * PLAYER_FRICTION * DT) (p.vy * PLAYER_FRICTION)
    PLAYER_R (FIELD_H - PLAYER_R) hH
  exact ⟨hx.1, hx.2.1, hy.1, hy.2.1, hx.2.2.1, hy.2.2.1,
         hx.2.2.2.1, hx.2.2.2.2, hy.2.2.2.1, hy.2.2.2.2⟩

/-- A player standing beyond the left wall limit. -/
def pOut : Player := { pA with x := 0 }

/-- C9 witness. -/
theorem c9_witness :
    PLAYER_R ≤ (physics_player pA DT).x ∧
    (physics_player pA DT).vx = pA.vx * PLAYER_FRICTION ∧
    (physics_player pOut DT).vx = 0 := by
  have h := c9_player_in_field pA
  have h' := c9_player_in_field pOut
  refine ⟨h.1, ?_, ?_⟩
  · exact h.2.2.2.2.2.2.2.1
      (by norm_num [pA, DT, PLAYER_FRICTION, PLAYER_R, FIELD_W])
  · exact h'.2.2.2.2.2.2.1
      (Or.inl (by norm_num [pOut, pA, DT, PLAYER_FRICTION, PLAYER_R]))

/-! ## C10 -/

/-- C10: every division in the kick-direction and collision-normal code has
a positive divisor — the aim normalization divides by `hypotQ aimx aimy`
only when it is at least 1/5, the player-to-ball fallback divides by
`hypotQ dx dy` only when `(dx, dy) ≠ (0, 0)`, and the collision normal
divides by `collDist dist2`, which is positive for every `dist2`. -/
theorem c10_division_guards :
    (∀ ax ay : ℚ, ¬ hypotQ ax ay < 1 / 5 → 0 < hypotQ ax ay) ∧
    (∀ dx dy : ℚ, ¬ (dx = 0 ∧ dy = 0) → 0 < hypotQ dx dy) ∧
    (∀ d2 : ℚ, 0 < collDist d2) := by
  refine ⟨?_, ?_, ?_⟩
  · intro ax ay h
    have h5 : (1 : ℚ) / 5 ≤ hypotQ ax ay := not_lt.mp h
    linarith
  · intro dx dy h
    have hpos : 0 < dx * dx + dy * dy := by
      rcases not_and_or.mp h with h1 | h1
      · nlinarith [mul_self_pos.mpr h1, mul_self_nonneg dy]
      · nlinarith [mul_self_pos.mpr h1, mul_self_nonneg dx]
    exact ratSqrt_pos hpos
  · intro d2
    unfold collDist
    split_ifs with h
    · exact ratSqrt_pos h
    · norm_num

/-- C10 witness. -/
theorem c10_witness : 0 < hypotQ 3 4 ∧ 0 < hypotQ 1 0 ∧ 0 < collDist 0 := by
  have hs : Nat.sqrt 25 = 5 := (Nat.eq_sqrt.mpr (by norm_num)).symm
  have ht : Int.toNat 25 = 25 := rfl
  have h34 : hypotQ 3 4 = 5 := by
    unfold hypotQ ratSqrt
    norm_num [ht, hs]
  exact ⟨c10_division_guards.1 3 4 (by rw [h34]; norm_num),
         c10_division_guards.2.1 1 0 (by norm_num),
         c10_division_guards.2.2 0⟩

/-! ## C5 -/

/-- C5: under the reachable-cooldown invariant (a multiple of `DT` at most
`KICK_COOLDOWN`), the tick decrement keeps the cooldown nonnegative,
subtracts exactly `DT` while positive, fixes zero, and preserves the
invariant; command application resets the cooldown to `KICK_COOLDOWN` on a
kick with spent cooldown, never touches the game state (hence never applies
a ball impulse) while the cooldown is positive, and preserves the
invariant. -/
theorem c5_cooldown (p : Player) (h : CdInv p.cooldown) :
    0 ≤ (tickCooldown p DT).cooldown ∧
    (0 < p.cooldown → (tickCooldown p DT).cooldown = p.cooldown - DT) ∧
    (p.cooldown = 0 → (tickCooldown p DT).cooldown = 0) ∧
    CdInv (tickCooldown p DT).cooldown ∧
    (∀ g : Game, ∀ inp : Inp, ∀ now : ℚ, inp.kick = true → p.cooldown ≤ 0 →
       ((g.handle_input p inp DT now)).2.cooldown = KICK_COOLDOWN) ∧
    (∀ g : Game, ∀ inp : Inp, ∀ now : ℚ, 0 < p.cooldown →
       ((g.handle_input p inp DT now)).1 = g) ∧
    (∀ g : Game, ∀ inp : Inp, ∀ now : ℚ,
       CdInv (((g.handle_input p inp DT now)).2.cooldown)) := by
  obtain ⟨k, hk18, hkc⟩ := h
  have hdt : (0 : ℚ) < DT := by norm_num [DT]
  refine ⟨?_, ?_, ?_, ?_, ?_, ?_, ?_⟩
  · unfold tickCooldown
    split_ifs with hpos
    · show 0 ≤ p.cooldown - DT
      have hk1 : 1 ≤ k := by
        rcases Nat.eq_zero_or_pos k with h0 | h1
        · rw [h0] at hkc; simp at hkc; rw [hkc] at hpos; exact absurd hpos (lt_irrefl 0)
        · exact h1
      have hk1q : (1 : ℚ) ≤ (k : ℚ) := by exact_mod_cast hk1
      rw [hkc]
      nlinarith
    · show 0 ≤ p.cooldown
      rw [hkc]
      positivity
  · intro hpos
    unfold tickCooldown
    rw [if_pos hpos]
  · intro h0
    unfold tickCooldown
    rw [if_neg (by rw [h0]; exact lt_irrefl 0)]
    exact h0
  · unfold tickCooldown
    split_ifs with hpos
    · have hk1 : 1 ≤ k := by
        rcases Nat.eq_zero_or_pos k with h0 | h1
        · rw [h0] at hkc; simp at hkc; rw [hkc] at hpos; exact absurd hpos (lt_irrefl 0)
        · exact h1
      refine ⟨k - 1, by omega, ?_⟩
      show p.cooldown - DT = ((k - 1 : ℕ) : ℚ) * DT
      rw [hkc]
      push_cast [Nat.cast_sub hk1]
      ring
    · exact ⟨k, hk18, hkc⟩
  · intro g inp now hkick hcd
    simp only [Game.handle_input]
    rw [if_pos ⟨hkick, hcd⟩]
  · intro g inp now hpos
    simp only [Game.handle_input]
    rw [if_neg (fun hc => absurd hc.2 (not_le.mpr hpos))]
  · intro g inp now
    simp only [Game.handle_input]
    by_cases hc : inp.kick = true ∧ p.cooldown ≤ 0
    · rw [if_pos hc]
      refine ⟨18, by norm_num, ?_⟩
      show KICK_COOLDOWN = ((18 : ℕ) : ℚ) * DT
      norm_num [KICK_COOLDOWN, DT]
    · rw [if_neg hc]
      split_ifs <;> exact ⟨k, hk18, hkc⟩

/-- C5 witness. -/
theorem c5_witness :
    0 ≤ (tickCooldown { pA with cooldown := KICK_COOLDOWN } DT).cooldown ∧
    (tickCooldown { pA with cooldown := KICK_COOLDOWN } DT).cooldown
      = KICK_COOLDOWN - DT := by
  have hinv : CdInv ({ pA with cooldown := KICK_COOLDOWN } : Player).cooldown := by
    refine ⟨18, by norm_num, ?_⟩
    show KICK_COOLDOWN = ((18 : ℕ) : ℚ) * DT
    norm_num [KICK_COOLDOWN, DT]
  have h := c5_cooldown { pA with cooldown := KICK_COOLDOWN } hinv
  exact ⟨h.1, h.2.1 (by show (0 : ℚ) < KICK_COOLDOWN; norm_num [KICK_COOLDOWN])⟩

/-! ## C8 -/

/-- C8: a kick command arriving with spent cooldown always resets the
cooldown to `KICK_COOLDOWN`, whether or not the ball was inside the
interaction radius `PLAYER_R + BALL_R + 6`; the impulse `KICK_IMPULSE`
along `kickDir` is added to the ball's velocity exactly when the ball was
in range (out of range, the game state is untouched). -/
theorem c8_kick (g : Game) (p : Player) (inp : Inp) (now : ℚ)
    (hk : inp.kick = true) (hcd : p.cooldown ≤ 0) :
    ((g.handle_input p inp DT now)).2.cooldown = KICK_COOLDOWN ∧
    (¬ ((g.ball.x - p.x) * (g.ball.x - p.x) + (g.ball.y - p.y) * (g.ball.y - p.y)
          ≤ (PLAYER_R + BALL_R + 6) ^ 2) →
       ((g.handle_input p inp DT now)).1 = g) ∧
    (((g.ball.x - p.x) * (g.ball.x - p.x) + (g.ball.y - p.y) * (g.ball.y - p.y)
          ≤ (PLAYER_R + BALL_R + 6) ^ 2) →
       ((g.handle_input p inp DT now)).1.ball.vx
           = g.ball.vx + (kickDir inp.aimx inp.aimy (g.ball.x - p.x) (g.ball.y - p.y)).1
               * KICK_IMPULSE ∧
       ((g.handle_input p inp DT now)).1.ball.vy
           = g.ball.vy + (kickDir inp.aimx inp.aimy (g.ball.x - p.x) (g.ball.y - p.y)).2
               * KICK_IMPULSE) := by
  simp only [Game.handle_input]
  rw [if_pos ⟨hk, hcd⟩]
  refine ⟨rfl, ?_, ?_⟩
  · intro hn
    rw [if_neg hn]
  · intro hyes
    rw [if_pos hyes]
    exact ⟨rfl, rfl⟩

/-- An input command that only presses kick, aiming right. -/
def inpK : Inp :=
  { up := 0, down := 0, left := 0, right := 0, sprint := false, kick := true,
    aimx := 1, aimy := 0 }

def g8 : Game := { g1 with ball := ⟨610, 350, 0, 0⟩ }

/-- C8 witness. -/
theorem c8_witness :
    ((g8.handle_input pA inpK DT 0)).2.cooldown = KICK_COOLDOWN ∧
    ((g8.handle_input pA inpK DT 0)).1.ball.vx
      = g8.ball.vx + (kickDir inpK.aimx inpK.aimy (g8.ball.x - pA.x) (g8.ball.y - pA.y)).1
          * KICK_IMPULSE := by
  have h := c8_kick g8 pA inpK 0 rfl (by norm_num [pA])
  exact ⟨h.1, (h.2.2 (by norm_num [g8, g1, pA, PLAYER_R, BALL_R])).1⟩

/-! Helper lemmas about `reset_positions` and `score_goal`. -/

theorem slots_getD_mem (x y z : ℚ × ℚ) (i : ℕ) :
    [x, y].getD (i % [x, y].length) z ∈ [x, y] := by
  rcases Nat.mod_two_eq_zero_or_one i with h | h <;>
    · show [x, y].getD (i % 2) z ∈ [x, y]
      rw [h]
      simp [List.getD]

theorem kickoff_placed (jit : ℕ → ℚ × ℚ) (idx r_i b_i : ℕ) (a : Player) :
    KickoffPlaced jit (kickoff_player jit idx r_i b_i a) := by
  unfold KickoffPlaced kickoff_player
  dsimp only
  by_cases hteam : a.team = TEAM_RED
  · rw [if_pos hteam, if_pos hteam]
    exact ⟨rfl, rfl, rfl, idx, red_slots.getD (r_i % red_slots.length) (0, 0),
      slots_getD_mem _ _ _ r_i, rfl, rfl⟩
  · rw [if_neg hteam, if_neg hteam]
    exact ⟨rfl, rfl, rfl, idx, blue_slots.getD (b_i % blue_slots.length) (0, 0),
      slots_getD_mem _ _ _ b_i, rfl, rfl⟩

theorem place_all_mem (jit : ℕ → ℚ × ℚ) :
    ∀ (l : List Player) (idx r_i b_i : ℕ) (p : Player),
      p ∈ place_all jit l idx r_i b_i → KickoffPlaced jit p := by
  intro l
  induction l with
  | nil => intro idx r b p h; simp [place_all] at h
  | cons a t ih =>
    intro idx r b p h
    unfold place_all at h
    split_ifs at h
    · rcases List.mem_cons.mp h with hh | ht
      · rw [hh]; exact kickoff_placed jit idx r b a
      · exact ih _ _ _ p ht
    · rcases List.mem_cons.mp h with hh | ht
      · rw [hh]; exact kickoff_placed jit idx r b a
      · exact ih _ _ _ p ht

theorem score_goal_ball (g : Game) (t : ℕ) (jit : ℕ → ℚ × ℚ) (now : ℚ) :
    (g.score_goal t jit now).ball = ⟨FIELD_W / 2, FIELD_H / 2, 0, 0⟩ := by
  unfold Game.score_goal Game.reset_positions
  split_ifs <;> rfl

theorem score_goal_players (g : Game) (t : ℕ) (jit : ℕ → ℚ × ℚ) (now : ℚ) :
    (g.score_goal t jit now).players = place_all jit g.players 0 0 0 := by
  unfold Game.score_goal Game.reset_positions
  split_ifs <;> rfl

theorem score_goal_scores_blue (g : Game) (jit : ℕ → ℚ × ℚ) (now : ℚ) :
    (g.score_goal TEAM_BLUE jit now).score_blue = g.score_blue + 1 ∧
    (g.score_goal TEAM_BLUE jit now).score_red = g.score_red := by
  unfold Game.score_goal Game.reset_positions
  rw [if_neg (by simp [TEAM_BLUE, TEAM_RED])]
  exact ⟨rfl, rfl⟩

/-! ## C7 -/

/-- C7: `round_over` holds exactly when a team reached `WIN_GOALS` or the
deadline elapsed; on that tick the toast carries the pre-reset
`winner_text`, both scores are zeroed, the deadline becomes `now +
ROUND_SECONDS`, the ball returns to field center, and every player is
repositioned with zero velocity and cooldown; otherwise the tick leaves the
game unchanged. -/
theorem c7_round_transition (g : Game) (jit : ℕ → ℚ × ℚ) (now : ℚ) :
    (g.round_over now = true ↔
      (WIN_GOALS ≤ g.score_red ∨ WIN_GOALS ≤ g.score_blue ∨ g.round_end_ts ≤ now)) ∧
    (g.round_over now = true →
      (g.tick_round jit now).2 = some g.winner_text ∧
      (g.tick_round jit now).1.score_red = 0 ∧
      (g.tick_round jit now).1.score_blue = 0 ∧
      (g.tick_round jit now).1.round_end_ts = now + ROUND_SECONDS ∧
      (g.tick_round jit now).1.ball = ⟨FIELD_W / 2, FIELD_H / 2, 0, 0⟩ ∧
      ∀ p ∈ (g.tick_round jit now).1.players, p.vx = 0 ∧ p.vy = 0 ∧ p.cooldown = 0) ∧
    (g.round_over now = false → g.tick_round jit now = (g, none)) := by
  refine ⟨?_, ?_, ?_⟩
  · unfold Game.round_over
    split_ifs with h
    · constructor
      · intro _
        rcases h with h | h
        · exact Or.inl h
        · exact Or.inr (Or.inl h)
      · intro _; rfl
    · rw [decide_eq_true_iff]
      constructor
      · intro hle; exact Or.inr (Or.inr hle)
      · rintro (h1 | h1 | h1)
        · exact absurd (Or.inl h1) h
        · exact absurd (Or.inr h1) h
        · exact h1
  · intro hro
    unfold Game.tick_round
    rw [if_pos hro]
    refine ⟨rfl, rfl, rfl, rfl, rfl, ?_⟩
    intro p hp
    have hk := place_all_mem jit _ 0 0 0 p hp
    exact ⟨hk.1, hk.2.1, hk.2.2.1⟩
  · intro hro
    unfold Game.tick_round
    rw [if_neg (by simp [hro])]

def g7 : Game := { g1 with score_red := 5 }

/-- C7 witness. -/
theorem c7_witness :
    (g7.tick_round jit0 0).2 = some "Red wins!" ∧
    (g7.tick_round jit0 0).1.score_red = 0 ∧
    (g7.tick_round jit0 0).1.round_end_ts = 0 + ROUND_SECONDS := by
  have hro : g7.round_over 0 = true :=
    (c7_round_transition g7 jit0 0).1.mpr (Or.inl (by norm_num [g7, g1, WIN_GOALS]))
  have h := (c7_round_transition g7 jit0 0).2.1 hro
  have hwt : g7.winner_text = "Red wins!" := by
    unfold Game.winner_text
    rw [if_pos (by norm_num [g7, g1])]
  exact ⟨h.1.trans (by rw [hwt]), h.2.1, h.2.2.2.1⟩

/-! Wall-phase helper lemmas. -/

theorem wallLeft_x_lb (g : Game) (jit : ℕ → ℚ × ℚ) (now : ℚ) (b : Ball) :
    BALL_R ≤ (wallLeft g jit now b).2.x := by
  unfold wallLeft
  split_ifs with h1 h2
  · dsimp only
    rw [score_goal_ball]
    norm_num [BALL_R, FIELD_W]
  · exact le_refl BALL_R
  · exact le_of_not_lt (fun hlt => h1 (by linarith))

theorem wallRight_x (g : Game) (jit : ℕ → ℚ × ℚ) (now : ℚ) (b : Ball)
    (h : BALL_R ≤ b.x) :
    BALL_R ≤ (wallRight g jit now b).2.x ∧
    (wallRight g jit now b).2.x ≤ FIELD_W - BALL_R := by
  unfold wallRight
  split_ifs with h1 h2
  · dsimp only
    rw [score_goal_ball]
    constructor <;> norm_num [BALL_R, FIELD_W]
  · constructor <;> norm_num [BALL_R, FIELD_W]
  · exact ⟨h, by linarith [not_lt.mp h1]⟩

theorem wallTop_x (b : Ball) : (wallTop b).x = b.x := by
  unfold wallTop; split_ifs <;> rfl

theorem wallBottom_x (b : Ball) : (wallBottom b).x = b.x := by
  unfold wallBottom; split_ifs <;> rfl

theorem wallTB_y (b : Ball) :
    BALL_R ≤ (wallBottom (wallTop b)).y ∧
    (wallBottom (wallTop b)).y ≤ FIELD_H - BALL_R := by
  unfold wallTop wallBottom
  by_cases h1 : b.y - BALL_R < 0
  · rw [if_pos h1]
    dsimp only
    by_cases h2 : BALL_R + BALL_R > FIELD_H
    · exact absurd h2 (by norm_num [BALL_R, FIELD_H])
    · rw [if_neg h2]
      constructor <;> norm_num [BALL_R, FIELD_H]
  · rw [if_neg h1]
    by_cases h3 : b.y + BALL_R > FIELD_H
    · rw [if_pos h3]
      constructor <;> norm_num [BALL_R, FIELD_H]
    · rw [if_neg h3]
      have ha := not_lt.mp h1
      have hb := not_lt.mp h3
      exact ⟨by linarith, by linarith⟩

/-! ## C4 -/

/-- A player resting against the left wall clamp position. -/
def pWall : Player := { pA with x := 18, y := 350 }

def g4 : Game := { g1 with players := [pWall], ball := ⟨14, 350, 0, 0⟩ }

/-- C4 counterexample: with the ball resting against the left wall at
`x = BALL_R = 14` and a player at the wall clamp position `x = PLAYER_R
= 18` on the same height, the tick's boundary handling fires nothing (the
ball is inside the field and no goal line is crossed, both scores stay 0),
but the subsequent player–ball collision resolution pushes the ball to
`x = -14/5 < 0`, outside the field rectangle. -/
theorem c4_counterexample :
    (g4.physics_ball jit0 0 DT).ball.x < 0 ∧
    (g4.physics_ball jit0 0 DT).score_red = 0 ∧
    (g4.physics_ball jit0 0 DT).score_blue = 0 := by
  have hs16 : Nat.sqrt 16 = 4 := (Nat.eq_sqrt.mpr (by norm_num)).symm
  have ht16 : Int.toNat 16 = 16 := rfl
  norm_num [Game.physics_ball, ballWalls, wallLeft, wallRight, wallTop, wallBottom,
    List.foldl, ballCollidePlayer, collDist, ratSqrt, ht16, hs16, g4, g1, pWall, pA,
    jit0, DT, FIELD_W, FIELD_H, GOAL_H, BALL_R, PLAYER_R, BALL_FRICTION]

/-- C4 (amended): after the boundary-handling phase of the ball step the
ball's position lies within the field rectangle inset by the ball radius
(a goal crossing repositions it to field center, which also lies inside);
the containment claimed for the full physics step fails, because the
player–ball collision resolution that runs afterwards can push the ball
back out. -/
theorem c4_ball_in_field_after_walls (g : Game) (jit : ℕ → ℚ × ℚ) (now : ℚ) (b : Ball) :
    BALL_R ≤ (ballWalls g jit now b).2.x ∧
    (ballWalls g jit now b).2.x ≤ FIELD_W - BALL_R ∧
    BALL_R ≤ (ballWalls g jit now b).2.y ∧
    (ballWalls g jit now b).2.y ≤ FIELD_H - BALL_R := by
  have h1 := wallLeft_x_lb g jit now b
  have h2 := wallRight_x (wallLeft g jit now b).1 jit now (wallLeft g jit now b).2 h1
  have h3 := wallTB_y (wallRight (wallLeft g jit now b).1 jit now (wallLeft g jit now b).2).2
  refine ⟨?_, ?_, ?_, ?_⟩
  · show BALL_R ≤ (wallBottom (wallTop
      (wallRight (wallLeft g jit now b).1 jit now (wallLeft g jit now b).2).2)).x
    rw [wallBottom_x, wallTop_x]
    exact h2.1
  · show (wallBottom (wallTop
      (wallRight (wallLeft g jit now b).1 jit now (wallLeft g jit now b).2).2)).x
        ≤ FIELD_W - BALL_R
    rw [wallBottom_x, wallTop_x]
    exact h2.2
  · exact h3.1
  · exact h3.2

/-! ## C6 -/

theorem collide_center_noop (jit : ℕ → ℚ × ℚ)
    (hj : ∀ n, |(jit n).1| ≤ 20 ∧ |(jit n).2| ≤ 20)
    (p : Player) (hp : KickoffPlaced jit p) (b : Ball)
    (hbx : b.x = FIELD_W / 2) (hby : b.y = FIELD_H / 2) :
    ballCollidePlayer b p = b := by
  obtain ⟨_, _, _, n, s, hs, hx, hy⟩ := hp
  have hjx := abs_le.mp (hj n).1
  have hjy := abs_le.mp (hj n).2
  have hno : ¬ ((b.x - p.x) * (b.x - p.x) + (b.y - p.y) * (b.y - p.y)
      < (BALL_R + PLAYER_R) * (BALL_R + PLAYER_R)) := by
    rw [hbx, hx, hby, hy]
    by_cases ht : p.team = TEAM_RED
    · rw [if_pos ht] at hs
      simp only [red_slots, List.mem_cons, List.mem_singleton, List.not_mem_nil,
        or_false] at hs
      rcases hs with rfl | rfl <;>
        · intro hlt
          norm_num [FIELD_W, FIELD_H, BALL_R, PLAYER_R] at hlt
          nlinarith [hjx.1, hjx.2, hjy.1, hjy.2,
            mul_self_nonneg ((FIELD_H : ℚ) / 2 - (FIELD_H * (2 / 5) + (jit n).2)),
            mul_self_nonneg ((FIELD_H : ℚ) / 2 - (FIELD_H * (3 / 5) + (jit n).2))]
    · rw [if_neg ht] at hs
      simp only [blue_slots, List.mem_cons, List.mem_singleton, List.not_mem_nil,
        or_false] at hs
      rcases hs with rfl | rfl <;>
        · intro hlt
          norm_num [FIELD_W, FIELD_H, BALL_R, PLAYER_R] at hlt
          nlinarith [hjx.1, hjx.2, hjy.1, hjy.2,
            mul_self_nonneg ((FIELD_H : ℚ) / 2 - (FIELD_H * (2 / 5) + (jit n).2)),
            mul_self_nonneg ((FIELD_H : ℚ) / 2 - (FIELD_H * (3 / 5) + (jit n).2))]
  unfold ballCollidePlayer
  rw [if_neg hno]

theorem foldl_collide_noop (b : Ball) :
    ∀ l : List Player, (∀ p ∈ l, ballCollidePlayer b p = b) →
      l.foldl ballCollidePlayer b = b := by
  intro l
  induction l with
  | nil => intro _; rfl
  | cons a t ih =>
    intro h
    rw [List.foldl_cons, h a (List.mem_cons_self a t)]
    exact ih (fun p hp => h p (List.mem_cons_of_mem a hp))

/-- C6: when the integrated ball position crosses the left boundary with
its height strictly inside the goal opening, the tick increments Blue's
score by exactly one, leaves Red's score untouched, recenters the ball with
zero velocity, and repositions every player to a jittered team kickoff slot
with zero velocity and zero cooldown. -/
theorem c6_left_goal_blue (g : Game) (jit : ℕ → ℚ × ℚ) (now : ℚ)
    (hj : ∀ n, |(jit n).1| ≤ 20 ∧ |(jit n).2| ≤ 20)
    (hL : g.ball.x + g.ball.vx * DT - BALL_R < 0)
    (hTop : (FIELD_H - GOAL_H) / 2 < g.ball.y + g.ball.vy * DT)
    (hBot : g.ball.y + g.ball.vy * DT < (FIELD_H - GOAL_H) / 2 + GOAL_H) :
    (g.physics_ball jit now DT).score_blue = g.score_blue + 1 ∧
    (g.physics_ball jit now DT).score_red = g.score_red ∧
    (g.physics_ball jit now DT).ball = ⟨FIELD_W / 2, FIELD_H / 2, 0, 0⟩ ∧
    ∀ p ∈ (g.physics_ball jit now DT).players, KickoffPlaced jit p := by
  have hwl : wallLeft g jit now
      ⟨g.ball.x + g.ball.vx * DT, g.ball.y + g.ball.vy * DT,
       g.ball.vx * BALL_FRICTION, g.ball.vy * BALL_FRICTION⟩
      = (Game.score_goal
          { g with ball := ⟨g.ball.x + g.ball.vx * DT, g.ball.y + g.ball.vy * DT,
                            g.ball.vx * BALL_FRICTION, g.ball.vy * BALL_FRICTION⟩ }
          TEAM_BLUE jit now,
         (Game.score_goal
          { g with ball := ⟨g.ball.x + g.ball.vx * DT, g.ball.y + g.ball.vy * DT,
                            g.ball.vx * BALL_FRICTION, g.ball.vy * BALL_FRICTION⟩ }
          TEAM_BLUE jit now).ball) := by
    unfold wallLeft
    rw [if_pos (show (⟨g.ball.x + g.ball.vx * DT, g.ball.y + g.ball.vy * DT,
          g.ball.vx * BALL_FRICTION, g.ball.vy * BALL_FRICTION⟩ : Ball).x - BALL_R < 0
        from hL),
       if_pos ⟨hTop, hBot⟩]
  set g2 := Game.score_goal
      { g with ball := ⟨g.ball.x + g.ball.vx * DT, g.ball.y + g.ball.vy * DT,
                        g.ball.vx * BALL_FRICTION, g.ball.vy * BALL_FRICTION⟩ }
      TEAM_BLUE jit now with hg2
  have hball2 : g2.ball = ⟨FIELD_W / 2, FIELD_H / 2, 0, 0⟩ := score_goal_ball _ _ _ _
  have hwr : wallRight g2 jit now g2.ball = (g2, g2.ball) := by
    rw [hball2]
    unfold wallRight
    rw [if_neg (by norm_num [BALL_R, FIELD_W])]
  have hwt : wallTop (⟨FIELD_W / 2, FIELD_H / 2, 0, 0⟩ : Ball)
      = ⟨FIELD_W / 2, FIELD_H / 2, 0, 0⟩ := by
    unfold wallTop
    rw [if_neg (by norm_num [BALL_R, FIELD_H])]
  have hwb : wallBottom (⟨FIELD_W / 2, FIELD_H / 2, 0, 0⟩ : Ball)
      = ⟨FIELD_W / 2, FIELD_H / 2, 0, 0⟩ := by
    unfold wallBottom
    rw [if_neg (by norm_num [BALL_R, FIELD_H])]
  have hgb : ballWalls g jit now
      ⟨g.ball.x + g.ball.vx * DT, g.ball.y + g.ball.vy * DT,
       g.ball.vx * BALL_FRICTION, g.ball.vy * BALL_FRICTION⟩
      = (g2, ⟨FIELD_W / 2, FIELD_H / 2, 0, 0⟩) := by
    unfold ballWalls
    rw [hwl]
    dsimp only
    rw [hwr]
    dsimp only
    rw [hball2, hwt, hwb]
  have hplayers2 : ∀ p ∈ g2.players, KickoffPlaced jit p := by
    intro p hp
    rw [hg2, score_goal_players] at hp
    exact place_all_mem jit _ 0 0 0 p hp
  have hfold : g2.players.foldl ballCollidePlayer
      (⟨FIELD_W / 2, FIELD_H / 2, 0, 0⟩ : Ball) = ⟨FIELD_W / 2, FIELD_H / 2, 0, 0⟩ :=
    foldl_collide_noop _ _ (fun p hp =>
      collide_center_noop jit hj p (hplayers2 p hp) _ rfl rfl)
  have hphys : g.physics_ball jit now DT
      = { g2 with ball := ⟨FIELD_W / 2, FIELD_H / 2, 0, 0⟩ } := by
    simp only [Game.physics_ball]
    rw [hgb]
    dsimp only
    rw [hfold]
    norm_num
  refine ⟨?_, ?_, ?_, ?_⟩
  · rw [hphys]
    show g2.score_blue = g.score_blue + 1
    exact (score_goal_scores_blue _ jit now).1
  · rw [hphys]
    show g2.score_red = g.score_red
    exact (score_goal_scores_blue _ jit now).2
  · rw [hphys]
  · rw [hphys]
    exact hplayers2

def p6b : Player := { pA with pid := "b", team := TEAM_BLUE, x := 900 }

def g6 : Game := { g1 with players := [pA, p6b], ball := ⟨10, 350, 0, 0⟩ }

/-- C6 witness. -/
theorem c6_witness :
    (g6.physics_ball jit0 0 DT).score_blue = g6.score_blue + 1 ∧
    (g6.physics_ball jit0 0 DT).score_red = g6.score_red ∧
    (g6.physics_ball jit0 0 DT).ball = ⟨FIELD_W / 2, FIELD_H / 2, 0, 0⟩ := by
  have h := c6_left_goal_blue g6 jit0 0
    (fun n => by norm_num [jit0])
    (by norm_num [g6, g1, DT, BALL_R])
    (by norm_num [g6, g1, DT, FIELD_H, GOAL_H])
    (by norm_num [g6, g1, DT, FIELD_H, GOAL_H])
  exact ⟨h.1, h.2.1, h.2.2.1⟩

end SockSoccer
